import Mathlib

/-!
# Shallow embedding of the wwotz/chip8 CHIP-8 interpreter core (src/chip.c)

The machine state mirrors the C `struct chip8` (`chip.c:31-42`): all machine
integers are modelled as `Nat` with explicit `% 256` / `% 65536` / `% 2^32`
reductions exactly where the C performs a truncating store or wrapping
arithmetic.  Arrays (`ram`, `v`, `stack`, `display`) are modelled as total
functions from `Nat`; the step function performs an explicit range check at
every array access the C code makes, and reports `StepResult.oob` (or `none`
for the sprite helper) whenever the C code would index outside the array's
declared bounds.  Such an access is undefined behavior in the C source - the
`oob` outcome therefore marks "the C program reads or writes out of bounds
here", NOT an error check that the C code performs.  `StepResult.abort`
models `unimplemented_instruction` (`chip.c:268-273`), which prints a TODO
message and calls `exit(EXIT_FAILURE)`.

The host key vector (`static int keys[0x10]`, `chip.c:101`) is passed to the
step function as a `Nat → Bool` argument, and the result of the C library
call `random()` used by opcode `Cxnn` is passed as a `Nat` argument `rnd`.
-/

/-- Pointwise function update, used to model a C array store `f[i] = val`. -/
def upd (f : Nat → Nat) (i val : Nat) : Nat → Nat :=
  fun k => if k = i then val else f k

/-- Two-dimensional pointwise update, used to model `display[r][c] = val`. -/
def upd2 (f : Nat → Nat → Nat) (r c val : Nat) : Nat → Nat → Nat :=
  fun i j => if i = r then (if j = c then val else f i j) else f i j

/-- The CHIP-8 machine state, mirroring `struct chip8` in `chip.c:31-42`.
`ram` has 4096 meaningful entries (uint8), `v` 16 (uint8), `stack` 16
(uint16), `display` 32 rows of 64 cells (uint32); `pc` and `I` are uint16,
`sp`, `delay` and `sound` are uint8. -/
@[ext]
structure Chip8 where
  pc : Nat
  ram : Nat → Nat
  v : Nat → Nat
  delay : Nat
  sound : Nat
  I : Nat
  sp : Nat
  stack : Nat → Nat
  display : Nat → Nat → Nat

/-- The all-zero machine state (result of the `memset` in `chip8_init`). -/
def chip8_zero : Chip8 :=
  { pc := 0, ram := fun _ => 0, v := fun _ => 0, delay := 0, sound := 0,
    I := 0, sp := 0, stack := fun _ => 0, display := fun _ _ => 0 }

/-- Outcome of one instruction cycle of `chip8_execute_instruction`:
`ok` is a normal completed cycle; `abort` models the
`unimplemented_instruction` stub (prints and `exit`s, `chip.c:268-273`);
`oob` marks an out-of-bounds C array access (undefined behavior in the
source, which performs no bounds checking). -/
inductive StepResult where
  | ok : Chip8 → StepResult
  | abort : Nat → StepResult
  | oob : StepResult

/-- The failure modes of `chip8_init` (`chip.c:504-551`): the rom-too-big
check at `chip.c:531` and the short-read check at `chip.c:543`.  In the pure
model the file contents are given as a list, so a short read cannot occur. -/
inductive LoadError where
  | imageTooLarge : LoadError
  | shortRead : LoadError

/-- The 80-byte font table `chip8_numbers` (`chip.c:48-65`). -/
def chip8_numbers : List Nat :=
  [0xF0, 0x90, 0x90, 0x90, 0xF0,
   0x20, 0x60, 0x20, 0x20, 0x70,
   0xF0, 0x10, 0xF0, 0x80, 0xF0,
   0xF0, 0x10, 0xF0, 0x10, 0xF0,
   0x90, 0x90, 0xF0, 0x10, 0x10,
   0xF0, 0x80, 0xF0, 0x10, 0xF0,
   0xF0, 0x80, 0xF0, 0x90, 0xF0,
   0xF0, 0x10, 0x20, 0x40, 0x40,
   0xF0, 0x90, 0xF0, 0x90, 0xF0,
   0xF0, 0x90, 0xF0, 0x10, 0xF0,
   0xF0, 0x90, 0xF0, 0x90, 0x90,
   0xE0, 0x90, 0xE0, 0x90, 0xE0,
   0xF0, 0x80, 0x80, 0x80, 0xF0,
   0xE0, 0x90, 0x90, 0x90, 0xE0,
   0xF0, 0x80, 0xF0, 0x80, 0xF0,
   0xF0, 0x80, 0xF0, 0x80, 0x80]

/-- The loader `chip8_init` (`chip.c:504-551`): zero the state, copy the
font table to ram offsets `0x00-0x4F`, reject the image if it exceeds
`4096 - 0x200` bytes (`chip.c:531`, which precedes the copy loop at
`chip.c:538`), otherwise copy the image to ram starting at `0x200` and set
`pc = 0x200`. -/
def chip8_init (image : List Nat) : Except LoadError Chip8 :=
  if image.length > 4096 - 0x200 then
    .error .imageTooLarge
  else
    .ok { chip8_zero with
          pc := 0x200,
          ram := fun a =>
            if a < 0x50 then chip8_numbers.getD a 0
            else if 0x200 ≤ a ∧ a < 0x200 + image.length then image.getD (a - 0x200) 0
            else 0 }

/-- The fetch `chip8_current_opcode` (`chip.c:258-266`):
`(opcode_t)(ram[pc] << 8 | ram[pc+1])`.  The C function performs no bounds
check; when `pc + 1 ≥ 4096` the read `ram[pc+1]` (or `ram[pc]`) is past the
4096-byte array, which we record as `none`. -/
def chip8_current_opcode (s : Chip8) : Option Nat :=
  if s.pc + 1 < 4096 then
    some ((s.ram s.pc <<< 8 ||| s.ram (s.pc + 1)) % 65536)
  else
    none

/-- The key-scan loop of opcode `Fx0A` (`chip.c:409-415`): scan `keys[0]`
through `keys[15]` in order and stop at the first pressed key.  `fuel`
counts the remaining iterations, `i` is the current index. -/
def chip8_find_key (keys : Nat → Bool) : Nat → Nat → Option Nat
  | 0, _ => none
  | fuel + 1, i => if keys i then some i else chip8_find_key keys fuel (i + 1)

/-- First pressed key in scan order, as found by the `Fx0A` loop. -/
def chip8_first_key (keys : Nat → Bool) : Option Nat :=
  chip8_find_key keys 16 0

/-- One pixel blit of `chip8_sprite_draw` (`chip.c:471-476`): set `VF = 1`
if the cell is already non-zero, then store `((pixel ^ cell) * 0xffffffff)`
truncated to uint32 - note the C xors the whole sprite BYTE into the 32-bit
cell value, not the single bit.  For each set bit `cell & (0x80 >> j)` the C
code reads and writes `display[yi][x+j]` with no bounds check; an index
outside the 32 x 64 grid is an out-of-bounds access, recorded as `none` by
the caller. -/
def chip8_draw_cell (cell yi xj : Nat) (s : Chip8) : Chip8 :=
  if s.display yi xj ≠ 0 then
    { s with v := upd s.v 15 1,
             display := upd2 s.display yi xj ((s.display yi xj ^^^ cell) * 0xffffffff % 4294967296) }
  else
    { s with display := upd2 s.display yi xj ((s.display yi xj ^^^ cell) * 0xffffffff % 4294967296) }

/-- The inner column loop of `chip8_sprite_draw` (`chip.c:469-478`),
`for (j = 0; j < 8; j++)`: blit the bits of one sprite row byte. -/
def chip8_draw_cols (cell x yi : Nat) : Nat → Nat → Chip8 → Option Chip8
  | 0, _, s => some s
  | fuel + 1, j, s =>
    if cell &&& (0x80 >>> j) ≠ 0 then
      if yi < 32 ∧ x + j < 64 then
        chip8_draw_cols cell x yi fuel (j + 1) (chip8_draw_cell cell yi (x + j) s)
      else none
    else chip8_draw_cols cell x yi fuel (j + 1) s

/-- The outer row loop of `chip8_sprite_draw` (`chip.c:467-479`),
`for (i = 0; i < n; i++)`: read the sprite byte `ram[I+i]` (out of bounds
when `I + i ≥ 4096`) and blit its 8 bits. -/
def chip8_draw_rows (x y : Nat) : Nat → Nat → Chip8 → Option Chip8
  | 0, _, s => some s
  | fuel + 1, i, s =>
    if s.I + i < 4096 then
      match chip8_draw_cols (s.ram (s.I + i)) x (y + i) 8 0 s with
      | some s1 => chip8_draw_rows x y fuel (i + 1) s1
      | none => none
    else none

/-- The sprite blit `chip8_sprite_draw` (`chip.c:463-480`): clear `VF`, then blit `n` sprite
rows from `ram[I..]` at `(x, y)`.  `none` marks an out-of-bounds array
access performed by the C code (which has no bounds checks). -/
def chip8_sprite_draw (x y n : Nat) (s : Chip8) : Option Chip8 :=
  chip8_draw_rows x y n 0 { s with v := upd s.v 15 0 }

/-- The dispatch body of `chip8_execute_instruction` (`chip.c:280-460`):
the `switch (opcode & 0xf000)` with the nested sub-switches of the source,
acting on an already fetched opcode.  Register indices are extracted inline
as `(op & 0x0f00) >> 8` and `(op & 0x00f0) >> 4` exactly as in the C.
Families and sub-opcodes the C switch does not cover fall through with the
state (including `pc`) unchanged, exactly as the C `switch` statements
without `default:` labels do; the explicitly stubbed cases (`5xxx`,
`8xy1`-`8xy7`, `8xyE`, `Bxxx`, `Fx18`) call `unimplemented_instruction`,
modelled as `abort`. -/
def chip8_dispatch (rnd : Nat) (keys : Nat → Bool) (op : Nat) (s : Chip8) : StepResult :=
  if op &&& 0xf000 = 0x0000 then
    if op &&& 0x00ff = 0xe0 then
      .ok { s with display := fun _ _ => 0, pc := (s.pc + 2) % 65536 }
    else if op &&& 0x00ff = 0xee then
      if (s.sp + 255) % 256 < 16 then
        .ok { s with pc := (s.stack ((s.sp + 255) % 256) + 2) % 65536, sp := (s.sp + 255) % 256 }
      else .oob
    else .ok s
  else if op &&& 0xf000 = 0x1000 then
    .ok { s with pc := op &&& 0x0fff }
  else if op &&& 0xf000 = 0x2000 then
    if s.sp < 16 then
      .ok { s with stack := upd s.stack s.sp s.pc, sp := (s.sp + 1) % 256, pc := op &&& 0x0fff }
    else .oob
  else if op &&& 0xf000 = 0x3000 then
    if s.v ((op &&& 0x0f00) >>> 8) = op &&& 0x00ff then .ok { s with pc := (s.pc + 4) % 65536 }
    else .ok { s with pc := (s.pc + 2) % 65536 }
  else if op &&& 0xf000 = 0x4000 then
    if s.v ((op &&& 0x0f00) >>> 8) ≠ op &&& 0x00ff then .ok { s with pc := (s.pc + 4) % 65536 }
    else .ok { s with pc := (s.pc + 2) % 65536 }
  else if op &&& 0xf000 = 0x5000 then
    .abort op
  else if op &&& 0xf000 = 0x6000 then
    .ok { s with v := upd s.v ((op &&& 0x0f00) >>> 8) (op &&& 0x00ff), pc := (s.pc + 2) % 65536 }
  else if op &&& 0xf000 = 0x7000 then
    .ok { s with v := upd s.v ((op &&& 0x0f00) >>> 8)
                        ((s.v ((op &&& 0x0f00) >>> 8) + (op &&& 0x00ff)) % 256),
                 pc := (s.pc + 2) % 65536 }
  else if op &&& 0xf000 = 0x8000 then
    if op &&& 0x000f = 0x0 then
      .ok { s with v := upd s.v ((op &&& 0x0f00) >>> 8) (s.v ((op &&& 0x00f0) >>> 4)),
                   pc := (s.pc + 2) % 65536 }
    else if op &&& 0x000f = 0x1 then .abort op
    else if op &&& 0x000f = 0x2 then .abort op
    else if op &&& 0x000f = 0x3 then .abort op
    else if op &&& 0x000f = 0x4 then .abort op
    else if op &&& 0x000f = 0x5 then .abort op
    else if op &&& 0x000f = 0x6 then .abort op
    else if op &&& 0x000f = 0x7 then .abort op
    else if op &&& 0x000f = 0xe then .abort op
    else .ok s
  else if op &&& 0xf000 = 0x9000 then
    if s.v ((op &&& 0x0f00) >>> 8) ≠ s.v ((op &&& 0x00f0) >>> 4) then
      .ok { s with pc := (s.pc + 4) % 65536 }
    else .ok { s with pc := (s.pc + 2) % 65536 }
  else if op &&& 0xf000 = 0xa000 then
    .ok { s with I := op &&& 0x0fff, pc := (s.pc + 2) % 65536 }
  else if op &&& 0xf000 = 0xb000 then
    .abort op
  else if op &&& 0xf000 = 0xc000 then
    .ok { s with v := upd s.v ((op &&& 0x0f00) >>> 8) ((rnd % 256) &&& (op &&& 0x00ff)),
                 pc := (s.pc + 2) % 65536 }
  else if op &&& 0xf000 = 0xd000 then
    match chip8_sprite_draw (s.v ((op &&& 0x0f00) >>> 8)) (s.v ((op &&& 0x00f0) >>> 4))
            (op &&& 0x000f) s with
    | some s1 => .ok { s1 with pc := (s1.pc + 2) % 65536 }
    | none => .oob
  else if op &&& 0xf000 = 0xe000 then
    if op &&& 0x00ff = 0x9e then
      if s.v ((op &&& 0x0f00) >>> 8) < 16 then
        if keys (s.v ((op &&& 0x0f00) >>> 8)) then .ok { s with pc := (s.pc + 4) % 65536 }
        else .ok { s with pc := (s.pc + 2) % 65536 }
      else .oob
    else if op &&& 0x00ff = 0xa1 then
      if s.v ((op &&& 0x0f00) >>> 8) < 16 then
        if keys (s.v ((op &&& 0x0f00) >>> 8)) then .ok { s with pc := (s.pc + 2) % 65536 }
        else .ok { s with pc := (s.pc + 4) % 65536 }
      else .oob
    else .ok s
  else
    if op &&& 0x00ff = 0x07 then
      .ok { s with v := upd s.v ((op &&& 0x0f00) >>> 8) s.delay, pc := (s.pc + 2) % 65536 }
    else if op &&& 0x00ff = 0x0a then
      match chip8_first_key keys with
      | some i => .ok { s with v := upd s.v ((op &&& 0x0f00) >>> 8) i, pc := (s.pc + 2) % 65536 }
      | none => .ok s
    else if op &&& 0x00ff = 0x15 then
      .ok { s with delay := s.v ((op &&& 0x0f00) >>> 8), pc := (s.pc + 2) % 65536 }
    else if op &&& 0x00ff = 0x18 then
      .abort op
    else if op &&& 0x00ff = 0x1e then
      .ok { s with I := (s.I + s.v ((op &&& 0x0f00) >>> 8)) % 65536, pc := (s.pc + 2) % 65536 }
    else if op &&& 0x00ff = 0x29 then
      .ok { s with I := (s.v ((op &&& 0x0f00) >>> 8) * 5) % 65536, pc := (s.pc + 2) % 65536 }
    else if op &&& 0x00ff = 0x33 then
      if s.I + 2 < 4096 then
        .ok { s with ram := upd (upd (upd s.ram s.I (s.v ((op &&& 0x0f00) >>> 8) / 100 % 256))
                                   (s.I + 1) (s.v ((op &&& 0x0f00) >>> 8) / 10 % 10))
                               (s.I + 2) (s.v ((op &&& 0x0f00) >>> 8) % 10),
                     pc := (s.pc + 2) % 65536 }
      else .oob
    else if op &&& 0x00ff = 0x55 then
      if s.I + ((op &&& 0x0f00) >>> 8) < 4096 then
        .ok { s with ram := (List.range (((op &&& 0x0f00) >>> 8) + 1)).foldl
                               (fun r i => upd r (s.I + i) (s.v i)) s.ram,
                     I := (s.I + ((op &&& 0x0f00) >>> 8) + 1) % 65536, pc := (s.pc + 2) % 65536 }
      else .oob
    else if op &&& 0x00ff = 0x65 then
      if s.I + ((op &&& 0x0f00) >>> 8) < 4096 then
        .ok { s with v := (List.range (((op &&& 0x0f00) >>> 8) + 1)).foldl
                             (fun w i => upd w i (s.ram (s.I + i))) s.v,
                     I := (s.I + ((op &&& 0x0f00) >>> 8) + 1) % 65536, pc := (s.pc + 2) % 65536 }
      else .oob
    else .ok s

/-- One instruction cycle, `chip8_execute_instruction` (`chip.c:275-461`):
fetch with `chip8_current_opcode`, then dispatch.  The C fetch cannot fail;
the `oob` outcome records that the fetch itself read past the end of `ram`
(`pc + 1 ≥ 4096`). -/
def chip8_execute_instruction (rnd : Nat) (keys : Nat → Bool) (s : Chip8) : StepResult :=
  match chip8_current_opcode s with
  | none => .oob
  | some op => chip8_dispatch rnd keys op s

/-- Run `n` instruction cycles (the emulation loop body `chip.c:242` calls
`chip8_execute_instruction` once per frame); stops at the first non-`ok`
outcome. -/
def chip8_run (rnd : Nat) (keys : Nat → Bool) : Nat → Chip8 → StepResult
  | 0, s => .ok s
  | n + 1, s =>
    match chip8_execute_instruction rnd keys s with
    | .ok s1 => chip8_run rnd keys n s1
    | r => r

/-- The set of opcodes for which the C dispatch has real semantics: every
case of the switch in `chip8_execute_instruction` that neither calls
`unimplemented_instruction` nor falls through a sub-switch silently. -/
def chip8_valid_opcode (op : Nat) : Bool :=
  (op &&& 0xf000 == 0x0000 && (op &&& 0x00ff == 0xe0 || op &&& 0x00ff == 0xee)) ||
  (op &&& 0xf000 == 0x1000) || (op &&& 0xf000 == 0x2000) ||
  (op &&& 0xf000 == 0x3000) || (op &&& 0xf000 == 0x4000) ||
  (op &&& 0xf000 == 0x6000) || (op &&& 0xf000 == 0x7000) ||
  (op &&& 0xf000 == 0x8000 && op &&& 0x000f == 0x0) ||
  (op &&& 0xf000 == 0x9000) || (op &&& 0xf000 == 0xa000) ||
  (op &&& 0xf000 == 0xc000) || (op &&& 0xf000 == 0xd000) ||
  (op &&& 0xf000 == 0xe000 && (op &&& 0x00ff == 0x9e || op &&& 0x00ff == 0xa1)) ||
  (op &&& 0xf000 == 0xf000 &&
    (op &&& 0x00ff == 0x07 || op &&& 0x00ff == 0x0a || op &&& 0x00ff == 0x15 ||
     op &&& 0x00ff == 0x1e || op &&& 0x00ff == 0x29 || op &&& 0x00ff == 0x33 ||
     op &&& 0x00ff == 0x55 || op &&& 0x00ff == 0x65))

/-- True exactly when the instruction at the current `pc` can be fetched and
is a recognized opcode. -/
def chip8_valid_fetch (s : Chip8) : Bool :=
  match chip8_current_opcode s with
  | some op => chip8_valid_opcode op
  | none => false

/-- Opcodes routed to the `unimplemented_instruction` stub (which prints a
TODO and exits): families `5xxx` and `Bxxx`, sub-opcodes `8xy1`-`8xy7` and
`8xyE`, and `Fx18`. -/
def chip8_stub_opcode (op : Nat) : Bool :=
  (op &&& 0xf000 == 0x5000) ||
  (op &&& 0xf000 == 0x8000 &&
    (op &&& 0x000f == 0x1 || op &&& 0x000f == 0x2 || op &&& 0x000f == 0x3 ||
     op &&& 0x000f == 0x4 || op &&& 0x000f == 0x5 || op &&& 0x000f == 0x6 ||
     op &&& 0x000f == 0x7 || op &&& 0x000f == 0xe)) ||
  (op &&& 0xf000 == 0xb000) ||
  (op &&& 0xf000 == 0xf000 && op &&& 0x00ff == 0x18)

/-- Opcodes that hit no case of any switch in the C dispatch: sub-opcodes of
families `0`, `8`, `E` and `F` with no matching `case` label.  The C
`switch` statements have no `default:`, so these fall through silently and
the cycle ends with the whole state, including `pc`, unchanged. -/
def chip8_gap_opcode (op : Nat) : Bool :=
  (op &&& 0xf000 == 0x0000 && !(op &&& 0x00ff == 0xe0 || op &&& 0x00ff == 0xee)) ||
  (op &&& 0xf000 == 0x8000 &&
    !(op &&& 0x000f == 0x0 || op &&& 0x000f == 0x1 || op &&& 0x000f == 0x2 ||
      op &&& 0x000f == 0x3 || op &&& 0x000f == 0x4 || op &&& 0x000f == 0x5 ||
      op &&& 0x000f == 0x6 || op &&& 0x000f == 0x7 || op &&& 0x000f == 0xe)) ||
  (op &&& 0xf000 == 0xe000 && !(op &&& 0x00ff == 0x9e || op &&& 0x00ff == 0xa1)) ||
  (op &&& 0xf000 == 0xf000 &&
    !(op &&& 0x00ff == 0x07 || op &&& 0x00ff == 0x0a || op &&& 0x00ff == 0x15 ||
      op &&& 0x00ff == 0x18 || op &&& 0x00ff == 0x1e || op &&& 0x00ff == 0x29 ||
      op &&& 0x00ff == 0x33 || op &&& 0x00ff == 0x55 || op &&& 0x00ff == 0x65))

/-! ## Bit-field decode lemmas -/

def chip8_keys_off : Nat → Bool := fun _ => false

def chip8_key5 : Nat → Bool := fun i => i == 5

def c8_s : Chip8 :=
  { chip8_zero with
    pc := 0x200,
    ram := fun a => if a = 0x200 then 0xF3 else if a = 0x201 then 0x0A else 0 }

def c1_s : Chip8 := { chip8_zero with ram := fun a => if a = 0 then 0x80 else 0 }

def c3_s : Chip8 := { chip8_zero with pc := 4095 }

def c3_s2 : Chip8 :=
  { chip8_zero with
    pc := 0x200,
    ram := fun a => if a = 0x200 then 0x12 else if a = 0x201 then 0x34 else 0 }

def c4_s : Chip8 := { chip8_zero with pc := 0x200 }

def c5_s : Chip8 := { chip8_zero with ram := fun a => if a = 0 then 0x80 else 0 }

def c6_s : Chip8 :=
  { chip8_zero with pc := 0x200, ram := fun a => if a = 0x201 then 0xEE else 0 }

def c6_s2 : Chip8 :=
  { chip8_zero with
    pc := 0x200,
    sp := 16,
    ram := fun a => if a = 0x200 then 0x22 else 0 }

def c7_s : Chip8 :=
  { chip8_zero with
    pc := 0x200,
    ram := fun a => if a = 0x200 then 0x23 else if a = 0x201 then 0x45
                    else if a = 0x346 then 0xEE else 0 }

def c10_s : Chip8 :=
  { chip8_zero with
    pc := 0x200,
    ram := fun a => if a = 0x200 then 0xF2 else if a = 0x201 then 0x0A else 0 }

def c10_keys : Nat → Bool := fun i => i == 3 || i == 7

/-- Result tag of a load attempt. -/
def chip8_load_ok : Except LoadError Chip8 → Bool
  | .ok _ => true
  | .error _ => false

/-- True exactly when a cycle outcome is a normal state whose next fetch is
a recognized opcode. -/
def chip8_ok_and_valid (r : StepResult) : Bool :=
  match r with
  | .ok s => chip8_valid_fetch s
  | _ => false

/-- The self-modifying looping program used to refute the pc-window claim:
set `v0 := 0x12`, `v1 := 0x08`, `I := 0`, store `v0 v1` to `ram[0..1]`
(planting the instruction `1208`, "jump 0x208", at address 0), then jump to
address 0; execution then loops between addresses `0x000` and `0x208`
through valid jump opcodes forever. -/
def c2_img : List Nat := [0x60, 0x12, 0x61, 0x08, 0xA0, 0x00, 0xF1, 0x55, 0x10, 0x00]

/-- The machine state the loader builds for `c2_img`. -/
def c2_s0 : Chip8 :=
  match chip8_init c2_img with
  | .ok s => s
  | .error _ => chip8_zero

/-- The state after the five set-up cycles of `c2_img`: `pc = 0`. -/
def c2_s5 : Chip8 :=
  match chip8_run 0 chip8_keys_off 5 c2_s0 with
  | .ok s => s
  | _ => chip8_zero

def c2w_s : Chip8 :=
  { chip8_zero with
    pc := 0x200,
    ram := fun a => if a = 0x200 then 0x60 else 0 }

def c4w_s : Chip8 :=
  { chip8_zero with
    pc := 0x200,
    ram := fun a => if a = 0x200 then 0x51 else if a = 0x201 then 0x23 else 0 }

def c4w_s2 : Chip8 :=
  { chip8_zero with
    pc := 0x200,
    ram := fun a => if a = 0x200 then 0xE1 else if a = 0x201 then 0x77 else 0 }

theorem chip8_land_nibble (x k : Nat) : x &&& (15 <<< k) = x / 2 ^ k % 16 * 2 ^ k := by
  apply Nat.eq_of_testBit_eq
  intro i
  have h15 : (15 : Nat) = 2 ^ 4 - 1 := rfl
  have h16 : (16 : Nat) = 2 ^ 4 := rfl
  rw [Nat.testBit_and, Nat.testBit_shiftLeft, Nat.mul_comm, Nat.testBit_mul_pow_two, h15, h16]
  rcases Nat.lt_or_ge i k with h | h
  · have h1 : ¬ i ≥ k := Nat.not_le_of_lt h
    simp [h1]
  · have e : k + (i - k) = i := by omega
    rw [Nat.testBit_two_pow_sub_one, Nat.testBit_mod_two_pow, ← Nat.shiftRight_eq_div_pow,
        Nat.testBit_shiftRight, e]
    simp [h]
    rw [Bool.and_comm]

theorem chip8_land_ff (x : Nat) : x &&& 0xff = x % 256 := Nat.and_pow_two_sub_one_eq_mod x 8

theorem chip8_land_f (x : Nat) : x &&& 0xf = x % 16 := Nat.and_pow_two_sub_one_eq_mod x 4

theorem chip8_land_fff (x : Nat) : x &&& 0xfff = x % 4096 := Nat.and_pow_two_sub_one_eq_mod x 12

theorem chip8_land_f000 (x : Nat) : x &&& 0xf000 = x / 4096 % 16 * 4096 := by
  have e : (0xf000 : Nat) = 15 <<< 12 := rfl
  rw [e, chip8_land_nibble]
  norm_num

theorem chip8_land_0f00_shift (x : Nat) : (x &&& 0x0f00) >>> 8 = x / 256 % 16 := by
  have e : (0x0f00 : Nat) = 15 <<< 8 := rfl
  rw [e, chip8_land_nibble, Nat.shiftRight_eq_div_pow]
  norm_num

theorem chip8_land_00f0_shift (x : Nat) : (x &&& 0x00f0) >>> 4 = x / 16 % 16 := by
  have e : (0x00f0 : Nat) = 15 <<< 4 := rfl
  rw [e, chip8_land_nibble, Nat.shiftRight_eq_div_pow]
  norm_num

theorem chip8_lor_byte (a b : Nat) (hb : b < 256) : a <<< 8 ||| b = a * 256 + b := by
  have h : (256 : Nat) = 2 ^ 8 := rfl
  rw [Nat.shiftLeft_eq, h, Nat.mul_comm, ← Nat.mul_add_lt_is_or (by omega)]

/-- Fetch at an in-bounds `pc` yields the big-endian byte pair. -/
theorem chip8_fetch_eq (s : Chip8) (a b : Nat) (hpc : s.pc + 1 < 4096)
    (hb2 : b < 256) (ha : s.ram s.pc = a) (hb : s.ram (s.pc + 1) = b)
    (hab : a * 256 + b < 65536) :
    chip8_current_opcode s = some (a * 256 + b) := by
  unfold chip8_current_opcode
  rw [if_pos hpc, ha, hb, chip8_lor_byte a b hb2, Nat.mod_eq_of_lt hab]

/-- A successful fetch turns the cycle into pure dispatch. -/
theorem chip8_execute_eq_dispatch (rnd : Nat) (keys : Nat → Bool) (s : Chip8) (op : Nat)
    (h : chip8_current_opcode s = some op) :
    chip8_execute_instruction rnd keys s = chip8_dispatch rnd keys op s := by
  unfold chip8_execute_instruction
  rw [h]

/-- C8: for every state about to execute `Fx0A` (ram bytes `0xF0 + x`,
`0x0A`), executing with all 16 keys released returns the very same state
(no register, `pc`, or other change); executing with key 5 (and only key
5) pressed sets `V[x] = 5` and advances `pc` by 2. -/
theorem c8_fx0a_wait (rnd rnd2 : Nat) (s : Chip8) (x : Nat) (hx : x < 16)
    (hpc : s.pc + 1 < 4096) (ha : s.ram s.pc = 0xF0 + x) (hb : s.ram (s.pc + 1) = 0x0A) :
    chip8_execute_instruction rnd chip8_keys_off s = .ok s ∧
    chip8_execute_instruction rnd2 chip8_key5 s =
      .ok { s with v := upd s.v x 5, pc := s.pc + 2 } := by
  have hop := chip8_fetch_eq s (0xF0 + x) 0x0A hpc (by omega) ha hb (by omega)
  have hfam : ((0xF0 + x) * 256 + 0x0A) / 4096 % 16 * 4096 = 0xf000 := by omega
  have hsub : ((0xF0 + x) * 256 + 0x0A) % 256 = 0x0a := by omega
  have hxf : ((0xF0 + x) * 256 + 0x0A) / 256 % 16 = x := by omega
  constructor
  · rw [chip8_execute_eq_dispatch _ _ _ _ hop]
    unfold chip8_dispatch
    simp only [chip8_land_f000, chip8_land_ff, chip8_land_f, chip8_land_fff,
               chip8_land_0f00_shift, chip8_land_00f0_shift, hfam, hsub, hxf]
    norm_num
    rw [show chip8_first_key chip8_keys_off = none from rfl]
  · rw [chip8_execute_eq_dispatch _ _ _ _ hop]
    unfold chip8_dispatch
    simp only [chip8_land_f000, chip8_land_ff, chip8_land_f, chip8_land_fff,
               chip8_land_0f00_shift, chip8_land_00f0_shift, hfam, hsub, hxf]
    norm_num
    rw [show chip8_first_key chip8_key5 = some 5 from rfl,
        Nat.mod_eq_of_lt (show s.pc + 2 < 65536 by omega)]

/-- Witness for `c8_fx0a_wait` at a concrete machine (`F30A` at `0x200`). -/
theorem c8_witness :
    chip8_execute_instruction 0 chip8_keys_off c8_s = .ok c8_s ∧
    chip8_execute_instruction 0 chip8_key5 c8_s =
      .ok { c8_s with v := upd c8_s.v 3 5, pc := 0x202 } :=
  c8_fx0a_wait 0 0 c8_s 3 (by decide) (by decide) rfl rfl

/-- C1 (code bug): drawing the same non-empty one-byte sprite `0x80` twice
at `(0, 0)` on an empty framebuffer does NOT clear the affected cell: the
cell ends at the value `0x100` (still on), because the C code xors the
whole sprite byte (not the pixel bit) into the 32-bit cell and multiplies
by `0xffffffff`.  The second draw does set `VF = 1` as the claim says, but
the "framebuffer region is cleared" half of the claim fails on the code. -/
theorem c1_double_draw_leaves_pixel_on :
    ((chip8_sprite_draw 0 0 1 c1_s).bind (chip8_sprite_draw 0 0 1)).map
        (fun s => (s.display 0 0, s.v 15)) = some (256, 1) := rfl

/-- C3 (code bug): the fetch performs no bounds check and has no error
path.  At `pc = 4095` (reachable via opcode `1FFF`) the C code reads
`ram[4096]`, one past the 4096-byte array - undefined behavior, recorded
as `none` in the model - instead of failing with a PcOutOfBounds error as
the claim requires; for an in-bounds `pc` the fetch does return the
big-endian combination of `ram[pc]` and `ram[pc+1]` (second conjunct,
bytes `12 34` giving opcode `0x1234`). -/
theorem c3_fetch_unchecked :
    chip8_current_opcode c3_s = none ∧
    chip8_execute_instruction 0 chip8_keys_off c3_s = .oob ∧
    chip8_current_opcode c3_s2 = some 0x1234 := ⟨rfl, rfl, rfl⟩

/-- C4 counterexample: the claim "every fetched opcode with an unrecognized
family or sub-opcode makes the cycle fail with UnimplementedOpcode, and no
unrecognized opcode silently leaves the machine state unchanged" is false:
opcode `0x0000` (family `0`, low byte neither `E0` nor `EE`) is fetched on
the all-zero machine, is not recognized, yet the cycle returns normally
with the state, including `pc`, unchanged. -/
theorem c4_counterexample :
    ¬ (∀ (rnd : Nat) (keys : Nat → Bool) (s : Chip8) (op : Nat),
        chip8_current_opcode s = some op → chip8_valid_opcode op = false →
        chip8_execute_instruction rnd keys s = .abort op) := by
  intro h
  have h1 := h 0 chip8_keys_off c4_s 0 rfl rfl
  rw [show chip8_execute_instruction 0 chip8_keys_off c4_s = .ok c4_s from rfl] at h1
  cases h1

/-- C5 (code bug): the sprite renderer performs no bounds check: drawing a
one-byte sprite at `y = 32` (a value any register can hold) makes the C
code access `display[32][0]`, outside the 64 x 32 grid - an out-of-bounds
access (undefined behavior), recorded as `none` in the model - rather than
bounds-checking as the claim requires.  The same draw at `y = 0` stays in
the grid and completes (second conjunct). -/
theorem c5_draw_out_of_grid :
    chip8_sprite_draw 0 32 1 c5_s = none ∧
    (chip8_sprite_draw 0 0 1 c5_s).isSome = true := ⟨rfl, rfl⟩

/-- C6 (code bug): the stack operations perform no bounds check, so the
stack pointer does not stay in `[0, 16)`.  Executing `00EE` on a fresh
machine (sp = 0) wraps the uint8 `sp` to 255 and reads `stack[255]`, far
outside the 16-entry array (first and second conjuncts); executing `2nnn`
with `sp = 16` (reachable after 16 nested calls) writes `stack[16]`, one
past the array (third conjunct).  Both are out-of-bounds accesses,
recorded as `oob` in the model. -/
theorem c6_stack_unchecked :
    chip8_execute_instruction 0 chip8_keys_off c6_s = .oob ∧
    (c6_s.sp + 255) % 256 = 255 ∧
    chip8_execute_instruction 0 chip8_keys_off c6_s2 = .oob := ⟨rfl, rfl, rfl⟩

/-- C7: for every state with `sp < 16` about to execute a call `2nnn`
(ram bytes `0x20 + hi`, `lo`), the call pushes the call-site `pc` at
`stack[sp]`, increments `sp`, and jumps to `nnn`; and from ANY state whose
stack above the pushed frame is untouched (`sp` back to the pushed depth
and `stack[sp]` still holding the call site) the return `00EE` sets `pc`
to the call site plus 2 and restores `sp` to its value before the call. -/
theorem c7_call_return (rnd rnd2 : Nat) (keys keys2 : Nat → Bool) (s : Chip8) (hi lo : Nat)
    (hsp : s.sp < 16) (hpc : s.pc + 1 < 4096) (hhi : hi < 16) (hlo : lo < 256)
    (ha : s.ram s.pc = 0x20 + hi) (hb : s.ram (s.pc + 1) = lo) :
    chip8_execute_instruction rnd keys s =
      .ok { s with stack := upd s.stack s.sp s.pc, sp := s.sp + 1, pc := hi * 256 + lo } ∧
    ∀ s2 : Chip8, s2.sp = s.sp + 1 → s2.stack s.sp = s.pc →
      s2.pc + 1 < 4096 → s2.ram s2.pc = 0 → s2.ram (s2.pc + 1) = 0xEE →
      chip8_execute_instruction rnd2 keys2 s2 = .ok { s2 with pc := s.pc + 2, sp := s.sp } := by
  have hop := chip8_fetch_eq s (0x20 + hi) lo hpc hlo ha hb (by omega)
  have hfam : ((0x20 + hi) * 256 + lo) / 4096 % 16 * 4096 = 0x2000 := by omega
  have hnnn : ((0x20 + hi) * 256 + lo) % 4096 = hi * 256 + lo := by omega
  constructor
  · rw [chip8_execute_eq_dispatch _ _ _ _ hop]
    unfold chip8_dispatch
    simp only [chip8_land_f000, chip8_land_ff, chip8_land_f, chip8_land_fff,
               chip8_land_0f00_shift, chip8_land_00f0_shift, hfam, hnnn]
    norm_num
    rw [if_pos hsp, Nat.mod_eq_of_lt (show s.sp + 1 < 256 by omega)]
  · intro s2 h1 h2 h3 h4 h5
    have hop2 := chip8_fetch_eq s2 0 0xEE h3 (by omega) h4 h5 (by omega)
    rw [chip8_execute_eq_dispatch _ _ _ _ hop2]
    unfold chip8_dispatch
    simp only [chip8_land_f000, chip8_land_ff, chip8_land_f, chip8_land_fff,
               chip8_land_0f00_shift, chip8_land_00f0_shift]
    norm_num
    have e1 : (s2.sp + 255) % 256 = s.sp := by omega
    rw [e1, if_pos (show s.sp < 16 by omega), h2,
        Nat.mod_eq_of_lt (show s.pc + 2 < 65536 by omega)]

/-- Witness for `c7_call_return`: call `2345` from `0x200`, then return. -/
theorem c7_witness :
    chip8_execute_instruction 0 chip8_keys_off c7_s =
      .ok { c7_s with stack := upd c7_s.stack 0 0x200, sp := 1, pc := 0x345 } ∧
    chip8_execute_instruction 0 chip8_keys_off
        { c7_s with stack := upd c7_s.stack 0 0x200, sp := 1, pc := 0x345 } =
      .ok { c7_s with stack := upd c7_s.stack 0 0x200, sp := 0, pc := 0x202 } := by
  have h := c7_call_return 0 0 chip8_keys_off chip8_keys_off c7_s 3 0x45
    (by decide) (by decide) (by decide) (by decide) rfl rfl
  exact ⟨h.1, h.2 { c7_s with stack := upd c7_s.stack 0 0x200, sp := 1, pc := 0x345 }
    rfl rfl (by decide) rfl rfl⟩

/-- The `Fx0A` scan loop returns the first pressed key: every index it
skipped is released. -/
theorem chip8_find_key_found (keys : Nat → Bool) :
    ∀ fuel i k, chip8_find_key keys fuel i = some k →
      keys k = true ∧ i ≤ k ∧ ∀ j, i ≤ j → j < k → keys j = false := by
  intro fuel
  induction fuel with
  | zero => intro i k h; simp [chip8_find_key] at h
  | succ n ih =>
    intro i k h
    unfold chip8_find_key at h
    by_cases hk : keys i
    · rw [if_pos hk] at h
      obtain rfl : i = k := by simpa using h
      exact ⟨hk, Nat.le_refl _, fun j hj1 hj2 => absurd hj2 (by omega)⟩
    · rw [if_neg hk] at h
      obtain ⟨h1, h2, h3⟩ := ih (i + 1) k h
      refine ⟨h1, by omega, fun j hj1 hj2 => ?_⟩
      rcases Nat.eq_or_lt_of_le hj1 with rfl | hlt
      · simpa using hk
      · exact h3 j (by omega) hj2

/-- If the scan loop finds nothing, every scanned key is released. -/
theorem chip8_find_key_none (keys : Nat → Bool) :
    ∀ fuel i, chip8_find_key keys fuel i = none → ∀ j, i ≤ j → j < i + fuel → keys j = false := by
  intro fuel
  induction fuel with
  | zero => intro i _ j _ h2; omega
  | succ n ih =>
    intro i h j h1 h2
    unfold chip8_find_key at h
    by_cases hk : keys i
    · rw [if_pos hk] at h; exact absurd h (by simp)
    · rw [if_neg hk] at h
      rcases Nat.eq_or_lt_of_le h1 with rfl | hlt
      · simpa using hk
      · exact ih (i + 1) h j (by omega) (by omega)

/-- C10: when `Fx0A` executes with at least one key pressed, the scan
finds a key (first conjunct), and the key `k` it reports is pressed, all
smaller indices are released (the scan runs from 0 to 15 and stops at the
first pressed key), and the cycle sets `V[x] = k` and advances `pc` by 2 -
a deterministic function of the key-state vector. -/
theorem c10_fx0a_min_key (rnd : Nat) (keys : Nat → Bool) (s : Chip8) (x : Nat) (hx : x < 16)
    (hpc : s.pc + 1 < 4096) (ha : s.ram s.pc = 0xF0 + x) (hb : s.ram (s.pc + 1) = 0x0A) :
    ((∃ i, i < 16 ∧ keys i = true) → (chip8_first_key keys).isSome = true) ∧
    ∀ k, chip8_first_key keys = some k →
      keys k = true ∧ (∀ j, j < k → keys j = false) ∧
      chip8_execute_instruction rnd keys s = .ok { s with v := upd s.v x k, pc := s.pc + 2 } := by
  constructor
  · rintro ⟨i, hi, hki⟩
    cases h : chip8_first_key keys with
    | some k => rfl
    | none =>
      have hall := chip8_find_key_none keys 16 0 h i (Nat.zero_le _) (by omega)
      rw [hki] at hall
      exact absurd hall (by simp)
  · intro k hk
    obtain ⟨h1, h2, h3⟩ := chip8_find_key_found keys 16 0 k hk
    refine ⟨h1, fun j hj => h3 j (Nat.zero_le _) hj, ?_⟩
    have hop := chip8_fetch_eq s (0xF0 + x) 0x0A hpc (by omega) ha hb (by omega)
    have hfam : ((0xF0 + x) * 256 + 0x0A) / 4096 % 16 * 4096 = 0xf000 := by omega
    have hsub : ((0xF0 + x) * 256 + 0x0A) % 256 = 0x0a := by omega
    have hxf : ((0xF0 + x) * 256 + 0x0A) / 256 % 16 = x := by omega
    rw [chip8_execute_eq_dispatch _ _ _ _ hop]
    unfold chip8_dispatch
    simp only [chip8_land_f000, chip8_land_ff, chip8_land_f, chip8_land_fff,
               chip8_land_0f00_shift, chip8_land_00f0_shift, hfam, hsub, hxf]
    norm_num
    rw [hk, Nat.mod_eq_of_lt (show s.pc + 2 < 65536 by omega)]

/-- Witness for `c10_fx0a_min_key`: keys 3 and 7 pressed, `F20A` writes 3. -/
theorem c10_witness :
    chip8_execute_instruction 0 c10_keys c10_s =
      .ok { c10_s with v := upd c10_s.v 2 3, pc := 0x202 } :=
  ((c10_fx0a_min_key 0 c10_keys c10_s 2 (by decide) (by decide) rfl rfl).2 3 rfl).2.2

/-- C9: the loader accepts an image of exactly 3584 bytes - producing a
state with `pc = 0x200` whose ram holds the image at `0x200..` - and
rejects an image of 3585 bytes with `ImageTooLarge`; the rejected load
carries no state at all (the size check at `chip.c:531` precedes the copy
loop at `chip.c:538`), so no rejected load writes the image into memory. -/
theorem c9_loader_size_check (image : List Nat) :
    (image.length = 3584 →
      ∃ s, chip8_init image = .ok s ∧ s.pc = 0x200 ∧
        ∀ i, i < 3584 → s.ram (0x200 + i) = image.getD i 0) ∧
    (image.length = 3585 → chip8_init image = .error .imageTooLarge) := by
  constructor
  · intro hlen
    unfold chip8_init
    rw [if_neg (by omega)]
    refine ⟨_, rfl, rfl, ?_⟩
    intro i hi
    show (if 0x200 + i < 0x50 then chip8_numbers.getD (0x200 + i) 0
          else if 0x200 ≤ 0x200 + i ∧ 0x200 + i < 0x200 + image.length
          then image.getD (0x200 + i - 0x200) 0 else 0) = image.getD i 0
    have e : 0x200 + i - 0x200 = i := by omega
    rw [if_neg (by omega), if_pos (by omega), e]
  · intro hlen
    unfold chip8_init
    rw [if_pos (by omega)]

/-- Witness for `c9_loader_size_check` on concrete 3584- and 3585-byte
images. -/
theorem c9_witness :
    chip8_init (List.replicate 3585 0) = .error .imageTooLarge ∧
    chip8_load_ok (chip8_init (List.replicate 3584 0)) = true := by
  constructor
  · exact (c9_loader_size_check _).2 (List.length_replicate 3585 0)
  · obtain ⟨s, hs, -, -⟩ :=
      (c9_loader_size_check (List.replicate 3584 0)).1 (List.length_replicate 3584 0)
    rw [hs]
    rfl

/-- Running `m + n` cycles is running `m`, then `n` more from where it
stopped. -/
theorem chip8_run_add (rnd : Nat) (keys : Nat → Bool) (m n : Nat) (s : Chip8) :
    chip8_run rnd keys (m + n) s =
      match chip8_run rnd keys m s with
      | .ok s1 => chip8_run rnd keys n s1
      | .abort op => .abort op
      | .oob => .oob := by
  induction m generalizing s with
  | zero =>
    rw [Nat.zero_add]
    rfl
  | succ k ih =>
    have e : k + 1 + n = (k + n) + 1 := by omega
    rw [e]
    simp only [chip8_run]
    cases h : chip8_execute_instruction rnd keys s with
    | ok s1 => simp [h, ih]
    | abort op => simp [h]
    | oob => simp [h]

theorem c2_s0_init : chip8_init c2_img = .ok c2_s0 := rfl

theorem c2_run5 : chip8_run 0 chip8_keys_off 5 c2_s0 = .ok c2_s5 := rfl

theorem c2_s5_pc : c2_s5.pc = 0 := rfl

theorem c2_period : chip8_run 0 chip8_keys_off 2 c2_s5 = .ok c2_s5 := rfl

theorem c2_run_mod2 (m : Nat) :
    chip8_run 0 chip8_keys_off m c2_s5 = chip8_run 0 chip8_keys_off (m % 2) c2_s5 := by
  induction m using Nat.strong_induction_on with
  | _ m ih =>
    rcases Nat.lt_or_ge m 2 with h | h
    · rw [Nat.mod_eq_of_lt h]
    · obtain ⟨k, rfl⟩ : ∃ k, m = 2 + k := ⟨m - 2, by omega⟩
      rw [chip8_run_add, c2_period]
      show chip8_run 0 chip8_keys_off k c2_s5 = chip8_run 0 chip8_keys_off ((2 + k) % 2) c2_s5
      rw [ih k (by omega)]
      have e2 : (2 + k) % 2 = k % 2 := by omega
      rw [e2]

/-- C2 counterexample: the claim "for every program image whose reachable
instructions are all valid opcodes, after n cycles 512 <= pc < 4096" is
false.  The loaded program `c2_img` executes only recognized opcodes
forever (every reached state fetches a valid opcode and no cycle faults),
yet after 5 cycles `pc = 0`. -/
theorem c2_counterexample :
    ¬ (∀ (image : List Nat) (s0 : Chip8) (rnd : Nat) (keys : Nat → Bool),
        chip8_init image = .ok s0 →
        (∀ n : Nat, chip8_ok_and_valid (chip8_run rnd keys n s0) = true) →
        ∀ n s1, chip8_run rnd keys n s0 = .ok s1 → 512 ≤ s1.pc ∧ s1.pc < 4096) := by
  intro h
  have hval : ∀ n : Nat, chip8_ok_and_valid (chip8_run 0 chip8_keys_off n c2_s0) = true := by
    intro n
    rcases Nat.lt_or_ge n 5 with h5 | h5
    · interval_cases n <;> decide
    · obtain ⟨k, rfl⟩ : ∃ k, n = 5 + k := ⟨n - 5, by omega⟩
      rw [chip8_run_add, c2_run5]
      show chip8_ok_and_valid (chip8_run 0 chip8_keys_off k c2_s5) = true
      rw [c2_run_mod2 k]
      have hk : k % 2 = 0 ∨ k % 2 = 1 := by omega
      rcases hk with e | e <;> rw [e] <;> decide
  have hbound := h c2_img c2_s0 0 chip8_keys_off c2_s0_init hval 5 c2_s5 c2_run5
  rw [c2_s5_pc] at hbound
  omega

theorem chip8_draw_cell_pc (cell yi xj : Nat) (s : Chip8) :
    (chip8_draw_cell cell yi xj s).pc = s.pc := by
  unfold chip8_draw_cell
  split <;> rfl

theorem chip8_draw_cols_pc (cell x yi : Nat) :
    ∀ fuel j s s1, chip8_draw_cols cell x yi fuel j s = some s1 → s1.pc = s.pc := by
  intro fuel
  induction fuel with
  | zero =>
    intro j s s1 h
    simp [chip8_draw_cols] at h
    rw [← h]
  | succ n ih =>
    intro j s s1 h
    unfold chip8_draw_cols at h
    by_cases hbit : cell &&& (0x80 >>> j) ≠ 0
    · rw [if_pos hbit] at h
      by_cases hin : yi < 32 ∧ x + j < 64
      · rw [if_pos hin] at h
        rw [ih (j + 1) _ s1 h, chip8_draw_cell_pc]
      · rw [if_neg hin] at h
        cases h
    · rw [if_neg hbit] at h
      exact ih (j + 1) s s1 h

theorem chip8_draw_rows_pc (x y : Nat) :
    ∀ fuel i s s1, chip8_draw_rows x y fuel i s = some s1 → s1.pc = s.pc := by
  intro fuel
  induction fuel with
  | zero =>
    intro i s s1 h
    simp [chip8_draw_rows] at h
    rw [← h]
  | succ n ih =>
    intro i s s1 h
    unfold chip8_draw_rows at h
    by_cases hin : s.I + i < 4096
    · rw [if_pos hin] at h
      cases hc : chip8_draw_cols (s.ram (s.I + i)) x (y + i) 8 0 s with
      | some s2 =>
        rw [hc] at h
        rw [ih (i + 1) s2 s1 h, chip8_draw_cols_pc _ _ _ _ _ _ _ hc]
      | none =>
        rw [hc] at h
        cases h
    · rw [if_neg hin] at h
      cases h

/-- The sprite blit never touches `pc`. -/
theorem chip8_sprite_draw_pc (x y n : Nat) (s s1 : Chip8)
    (h : chip8_sprite_draw x y n s = some s1) : s1.pc = s.pc := by
  unfold chip8_sprite_draw at h
  have h2 := chip8_draw_rows_pc x y n 0 _ s1 h
  exact h2

/-- C2 amended: one successful cycle moves `pc` to the old `pc` (blocked
key-wait or silently ignored opcode), the old `pc` plus 2 or 4 (mod 2^16),
a 12-bit jump or call target (below 4096), or a popped return address plus
2 (mod 2^16); no `[512, 4096)` window is preserved in general. -/
theorem c2_next_pc (rnd : Nat) (keys : Nat → Bool) (s s1 : Chip8)
    (h : chip8_execute_instruction rnd keys s = .ok s1) :
    s1.pc = s.pc ∨ s1.pc = (s.pc + 2) % 65536 ∨ s1.pc = (s.pc + 4) % 65536 ∨
    s1.pc < 4096 ∨ s1.pc = (s.stack ((s.sp + 255) % 256) + 2) % 65536 := by
  cases hop : chip8_current_opcode s with
  | none =>
    unfold chip8_execute_instruction at h
    rw [hop] at h
    cases h
  | some op =>
    rw [chip8_execute_eq_dispatch rnd keys s op hop] at h
    unfold chip8_dispatch at h
    have hf0 : op &&& 0xf000 = op / 4096 % 16 * 4096 := chip8_land_f000 op
    have hcase : op / 4096 % 16 = 0 ∨ op / 4096 % 16 = 1 ∨ op / 4096 % 16 = 2 ∨
        op / 4096 % 16 = 3 ∨ op / 4096 % 16 = 4 ∨ op / 4096 % 16 = 5 ∨
        op / 4096 % 16 = 6 ∨ op / 4096 % 16 = 7 ∨ op / 4096 % 16 = 8 ∨
        op / 4096 % 16 = 9 ∨ op / 4096 % 16 = 10 ∨ op / 4096 % 16 = 11 ∨
        op / 4096 % 16 = 12 ∨ op / 4096 % 16 = 13 ∨ op / 4096 % 16 = 14 ∨
        op / 4096 % 16 = 15 := by omega
    rcases hcase with hF | hF | hF | hF | hF | hF | hF | hF | hF | hF | hF | hF | hF | hF | hF | hF <;>
      rw [hF] at hf0 <;> norm_num at hf0 <;> rw [hf0] at h <;> simp only [reduceIte, Nat.reduceEqDiff] at h
    · -- 0x0xxx: clear, return, or silent gap
      split_ifs at h <;> cases h <;> simp <;> omega
    · -- 1nnn
      cases h <;> simp [chip8_land_fff] <;> omega
    · -- 2nnn
      split_ifs at h <;> cases h <;> simp [chip8_land_fff] <;> omega
    · -- 3xnn
      split_ifs at h <;> cases h <;> simp <;> omega
    · -- 4xnn
      split_ifs at h <;> cases h <;> simp <;> omega
    · -- 5xxx stub
      cases h
    · -- 6xnn
      cases h <;> simp <;> omega
    · -- 7xnn
      cases h <;> simp <;> omega
    · -- 8xyk
      split_ifs at h <;> cases h <;> simp <;> omega
    · -- 9xyk
      split_ifs at h <;> cases h <;> simp <;> omega
    · -- Annn
      cases h <;> simp <;> omega
    · -- Bnnn stub
      cases h
    · -- Cxnn
      cases h <;> simp <;> omega
    · -- Dxyn
      cases hdr : chip8_sprite_draw (s.v ((op &&& 0x0f00) >>> 8))
          (s.v ((op &&& 0x00f0) >>> 4)) (op &&& 0x000f) s with
      | some s2 =>
        rw [hdr] at h
        cases h
        have hpc2 : s2.pc = s.pc := chip8_sprite_draw_pc _ _ _ _ _ hdr
        simp [hpc2]
      | none =>
        rw [hdr] at h
        cases h
    · -- Ex9E / ExA1
      split_ifs at h <;> cases h <;> simp <;> omega
    · -- Fxkk
      by_cases h07 : op &&& 0x00ff = 0x07
      · rw [if_pos h07] at h
        cases h <;> simp <;> omega
      rw [if_neg h07] at h
      by_cases h0a : op &&& 0x00ff = 0x0a
      · rw [if_pos h0a] at h
        cases hfk : chip8_first_key keys <;> rw [hfk] at h <;> cases h <;> simp <;> omega
      rw [if_neg h0a] at h
      by_cases h15 : op &&& 0x00ff = 0x15
      · rw [if_pos h15] at h
        cases h <;> simp <;> omega
      rw [if_neg h15] at h
      by_cases h18 : op &&& 0x00ff = 0x18
      · rw [if_pos h18] at h
        cases h
      rw [if_neg h18] at h
      by_cases h1e : op &&& 0x00ff = 0x1e
      · rw [if_pos h1e] at h
        cases h <;> simp <;> omega
      rw [if_neg h1e] at h
      by_cases h29 : op &&& 0x00ff = 0x29
      · rw [if_pos h29] at h
        cases h <;> simp <;> omega
      rw [if_neg h29] at h
      by_cases h33 : op &&& 0x00ff = 0x33
      · rw [if_pos h33] at h
        split_ifs at h <;> cases h <;> simp <;> omega
      rw [if_neg h33] at h
      by_cases h55 : op &&& 0x00ff = 0x55
      · rw [if_pos h55] at h
        split_ifs at h <;> cases h <;> simp <;> omega
      rw [if_neg h55] at h
      by_cases h65 : op &&& 0x00ff = 0x65
      · rw [if_pos h65] at h
        split_ifs at h <;> cases h <;> simp <;> omega
      rw [if_neg h65] at h
      cases h <;> simp <;> omega

/-- Witness for `c2_next_pc`: one `6000` cycle from a concrete state. -/
theorem c2_next_pc_witness :
    ({ c2w_s with v := upd c2w_s.v 0 0, pc := 0x202 } : Chip8).pc = c2w_s.pc ∨
    ({ c2w_s with v := upd c2w_s.v 0 0, pc := 0x202 } : Chip8).pc = (c2w_s.pc + 2) % 65536 ∨
    ({ c2w_s with v := upd c2w_s.v 0 0, pc := 0x202 } : Chip8).pc = (c2w_s.pc + 4) % 65536 ∨
    ({ c2w_s with v := upd c2w_s.v 0 0, pc := 0x202 } : Chip8).pc < 4096 ∨
    ({ c2w_s with v := upd c2w_s.v 0 0, pc := 0x202 } : Chip8).pc =
      (c2w_s.stack ((c2w_s.sp + 255) % 256) + 2) % 65536 :=
  c2_next_pc 0 chip8_keys_off c2w_s { c2w_s with v := upd c2w_s.v 0 0, pc := 0x202 } rfl

/-- C4 amended: explicitly stubbed opcodes abort the run; uncovered
sub-opcodes of families `0`, `8`, `E`, `F` are silently ignored, leaving the
whole state (including `pc`) unchanged. -/
theorem c4_stub_gap (rnd : Nat) (keys : Nat → Bool) (s : Chip8) (op : Nat)
    (hop : chip8_current_opcode s = some op) :
    (chip8_stub_opcode op = true → chip8_execute_instruction rnd keys s = .abort op) ∧
    (chip8_gap_opcode op = true → chip8_execute_instruction rnd keys s = .ok s) := by
  rw [chip8_execute_eq_dispatch rnd keys s op hop]
  constructor
  · intro h
    simp only [chip8_stub_opcode, Bool.or_eq_true, Bool.and_eq_true, beq_iff_eq] at h
    unfold chip8_dispatch
    rcases h with ((h | ⟨h8, hsub⟩) | h) | ⟨hf, hsub⟩
    · rw [h]
      norm_num
    · rw [h8]
      norm_num
      rcases hsub with (((((((h1 | h1) | h1) | h1) | h1) | h1) | h1) | h1) <;>
        rw [h1] <;> norm_num
    · rw [h]
      norm_num
    · rw [hf, hsub]
      norm_num
  · intro h
    simp only [chip8_gap_opcode, Bool.or_eq_true, Bool.and_eq_true, beq_iff_eq,
               Bool.not_eq_true', Bool.or_eq_false_iff, beq_eq_false_iff_ne, ne_eq] at h
    unfold chip8_dispatch
    rcases h with ((⟨h0, hn1, hn2⟩ | ⟨h8, hn⟩) | ⟨he, hn1, hn2⟩) | ⟨hf, hn⟩
    · rw [h0]
      norm_num
      rw [if_neg hn1, if_neg hn2]
    · rw [h8]
      norm_num
      obtain ⟨⟨⟨⟨⟨⟨⟨⟨n0, n1⟩, n2⟩, n3⟩, n4⟩, n5⟩, n6⟩, n7⟩, ne'⟩ := hn
      rw [if_neg n0, if_neg n1, if_neg n2, if_neg n3, if_neg n4, if_neg n5, if_neg n6,
          if_neg n7, if_neg ne']
    · rw [he]
      norm_num
      rw [if_neg hn1, if_neg hn2]
    · rw [hf]
      norm_num
      obtain ⟨⟨⟨⟨⟨⟨⟨⟨n07, n0a⟩, n15⟩, n18⟩, n1e⟩, n29⟩, n33⟩, n55⟩, n65⟩ := hn
      rw [if_neg n07, if_neg n0a, if_neg n15, if_neg n18, if_neg n1e, if_neg n29,
          if_neg n33, if_neg n55, if_neg n65]

/-- Witness for `c4_stub_gap`: stub opcode `5123` aborts; gap opcode
`E177` is silently ignored. -/
theorem c4_stub_gap_witness :
    chip8_execute_instruction 0 chip8_keys_off c4w_s = .abort 0x5123 ∧
    chip8_execute_instruction 0 chip8_keys_off c4w_s2 = .ok c4w_s2 :=
  ⟨(c4_stub_gap 0 chip8_keys_off c4w_s 0x5123 rfl).1 rfl,
   (c4_stub_gap 0 chip8_keys_off c4w_s2 0xE177 rfl).2 rfl⟩
